import Mathlib

/-!
Verification of the multi-agent orchestration pipeline and its SSE streaming
bridge. The development embeds, as executable Lean definitions:

* the shared session-state data model (key/value store plus event log);
* the EscalationChecker stage from agents/orchestrator.ts;
* the Stage tree declared by agents/orchestrator.ts and packages/core/src/judge.ts;
* the Loop / Sequential composition state machine and the runner merge step
  (these live in the external agent toolkit, so they are modelled from the
  specification text);
* the SSE request handler of apps/api/src/server.ts (frame encoding,
  keep-alive, cancellation, error reporting) and the zod query validation of
  apps/api/src/schemas.ts.
-/

/-- Structured JSON-like value stored in session state (the shape that
judge_output and other state values take at runtime). -/
inductive Value where
  | vstr (s : String)
  | vnum (n : Int)
  | vbool (b : Bool)
  | vobj (fields : List (String × Value))

/-- Association-list read used for session state and for state deltas.
Returns the binding nearest the front of the list. -/
def stateGet (m : List (String × Value)) (k : String) : Option Value :=
  match m with
  | [] => none
  | (k1, v) :: rest => if k1 = k then some v else stateGet rest k

/-- Property access v[k] as JavaScript sees it: defined for objects, undefined
for every primitive. -/
def Value.getField (v : Value) (k : String) : Option Value :=
  match v with
  | .vobj fields => stateGet fields k
  | _ => none

/-- Truth of the strict comparison x === "pass" on an optional value, as in
lastOutput?.status === "pass" in agents/orchestrator.ts. -/
def isPassStatus (o : Option Value) : Bool :=
  match o with
  | some (.vstr s) => s == "pass"
  | _ => false

/-- One part of an Event content payload; only the text representation is
relevant to this system. -/
structure ContentPart where
  text : Option String

/-- Structured content payload of an Event: a role tag plus ordered parts. -/
structure Content where
  role : String
  parts : List ContentPart

/-- Named external-capability invocation attached to an Event. -/
structure FunctionCall where
  name : String
  args : List (String × Value)

/-- Named external-capability result attached to an Event. -/
structure FunctionResponse where
  name : String
  response : Option Value

/-- Actions carried by an Event: the escalate flag that terminates an
enclosing Loop, and the state delta the runner merges into session state
(the mechanism by which a stage with an outputKey writes its structured
output). -/
structure EventActions where
  escalate : Bool
  stateDelta : List (String × Value)

/-- Immutable record produced by a stage; author may be absent, in which case
consumers substitute the string system. -/
structure Event where
  author : Option String
  content : Option Content
  functionCalls : List FunctionCall
  functionResponses : List FunctionResponse
  actions : EventActions

/-- Mutable run-scoped store: key/value state with last-write-wins reads plus
an append-only event log. -/
structure SessionState where
  state : List (String × Value)
  eventLog : List Event

/-- Modelled from the spec: applying one state delta merges each binding in
order, each merge overwriting any prior value for that key. Bindings are
prepended, so stateGet sees the most recent write first. -/
def applyDelta (m : List (String × Value)) (d : List (String × Value)) :
    List (String × Value) :=
  d.foldl (fun acc kv => kv :: acc) m

/-- Modelled from the spec: the PipelineRunner applies each produced Event to
the session — its declared state delta is merged and the Event is appended to
the log, in production order. -/
def applyEvent (s : SessionState) (e : Event) : SessionState :=
  { state := applyDelta s.state e.actions.stateDelta
    eventLog := s.eventLog ++ [e] }

/-- Modelled from the spec: events of a run are applied in production order. -/
def applyEvents (s : SessionState) (es : List Event) : SessionState :=
  es.foldl applyEvent s

/-- Embedding of EscalationChecker.runAsyncImpl from agents/orchestrator.ts:
read state at key judge_output, and emit a single event — the escalate event
when the optional status field strictly equals pass, the continue (retry)
event otherwise. -/
def escalationCheckerRun (name : String) (session : SessionState) : Event :=
  let lastOutput := stateGet session.state "judge_output"
  let approvedText := "Research approved. Moving to content creation."
  let retryText := "Research failed quality check. Retrying..."
  if isPassStatus (lastOutput.bind (fun v => v.getField "status")) then
    { author := some name
      content := some { role := "model", parts := [{ text := some approvedText }] }
      functionCalls := []
      functionResponses := []
      actions := { escalate := true, stateDelta := [] } }
  else
    { author := some name
      content := some { role := "model", parts := [{ text := some retryText }] }
      functionCalls := []
      functionResponses := []
      actions := { escalate := false, stateDelta := [] } }

/-- Polymorphic Stage tree: Leaf (delegates to the external reasoning
capability, optionally declaring an outputKey), Sequential, Loop with a
maxIterations bound, and the deterministic Checker. -/
inductive Stage where
  | leaf (name : String) (outputKey : Option String)
  | seq (name : String) (children : List Stage)
  | loop (name : String) (children : List Stage) (maxIterations : Nat)
  | checker (name : String)

/-- Embedding of the researcher declaration in agents/researcher.ts: an
LlmAgent with no outputKey. -/
def researcher : Stage := .leaf "researcher" none

/-- Embedding of the judge declaration in packages/core/src/judge.ts: an
LlmAgent whose outputKey is judge_output. -/
def judge : Stage := .leaf "judge" (some "judge_output")

/-- Embedding of the researchLoop declaration in agents/orchestrator.ts: a
LoopAgent over researcher, judge and the EscalationChecker named checker,
with maxIterations equal to 3. -/
def researchLoop : Stage :=
  .loop "research_loop" [researcher, judge, .checker "checker"] 3

/-- Embedding of the courseCreator declaration in agents/orchestrator.ts: a
SequentialAgent whose only child is the research loop. -/
def courseCreator : Stage := .seq "course_creator_pipeline" [researchLoop]

/-- One pipeline component viewed as a state-threading event producer: given
the session at its start it yields the events of its run and the session
after they were applied. -/
def Child : Type := SessionState → List Event × SessionState

/-- Modelled from the spec: Sequential composition runs each child in listed
order, exhausting one child fully before starting the next, forwarding every
child event and adding none of its own. -/
def runChildrenWith (cs : List Child) (s : SessionState) :
    List Event × SessionState :=
  match cs with
  | [] => ([], s)
  | c :: rest =>
    let r := c s
    let r2 := runChildrenWith rest r.2
    (r.1 ++ r2.1, r2.2)

/-- Whether the most recent event of a body pass carries the escalate flag —
the signal the Loop inspects after each pass. -/
def lastEscalates (evs : List Event) : Bool :=
  match evs.getLast? with
  | some e => e.actions.escalate
  | none => false

/-- Terminal status of a Loop run. -/
inductive LoopTerm where
  | escalated
  | exhausted
deriving DecidableEq

/-- Result of running a Loop: the forwarded events, the session after them,
the terminal status, and how many body passes were performed. -/
structure LoopRun where
  events : List Event
  final : SessionState
  outcome : LoopTerm
  passes : Nat

/-- Modelled from the spec: the Loop state machine. With iterations left it
runs one body pass, forwards its events; if the last event of the pass
escalates it stops in the Escalated state after that pass, otherwise it
recurs, and reaching the bound without escalation ends in Exhausted with no
further events. -/
def runLoopWith (pass : Child) : Nat → SessionState → LoopRun
  | 0, s => ⟨[], s, .exhausted, 0⟩
  | n + 1, s =>
    let p := pass s
    if lastEscalates p.1 then ⟨p.1, p.2, .escalated, 1⟩
    else
      let r := runLoopWith pass n p.2
      ⟨p.1 ++ r.events, r.final, r.outcome, r.passes + 1⟩

/-- Events of n body passes run back to back from a given session. -/
def iterEvents (pass : Child) : Nat → SessionState → List Event
  | 0, _ => []
  | n + 1, s => (pass s).1 ++ iterEvents pass n (pass s).2

/-- Session reached after n body passes. -/
def iterState (pass : Child) : Nat → SessionState → SessionState
  | 0, s => s
  | n + 1, s => iterState pass n (pass s).2

/-- The Loop packaged as a child of an enclosing Sequential composition. -/
def loopChild (pass : Child) (n : Nat) : Child := fun s =>
  let r := runLoopWith pass n s
  (r.events, r.final)

/-- A single-event stage (such as the Checker) packaged as a child: it yields
its one event, which the runner applies to the session. -/
def oneEventChild (f : SessionState → Event) : Child := fun s =>
  let e := f s
  ([e], applyEvent s e)

/-- Embedding of the adk stringifyContent helper as used by the handlers:
the concatenated text of the content parts, absent when there is no content
or no text part. -/
def stringifyContent (e : Event) : Option String :=
  match e.content with
  | none => none
  | some c =>
    let ts := c.parts.filterMap (fun p => p.text)
    if ts.isEmpty then none else some (String.join ts)

/-- One SSE data frame as built by the stream handler of
apps/api/src/server.ts: author (with the system default), text, the call and
response names, the escalate flag, the judge_output snapshot read from the
session after the event, and the request id. -/
structure Frame where
  author : String
  text : Option String
  calls : List String
  responses : List String
  escalate : Bool
  judge_output : Option Value
  reqId : String

/-- Embedding of the frame construction inside the streaming loop of
apps/api/src/server.ts, applied to one event and the session state as it
stands after that event was applied. -/
def encodeFrame (reqId : String) (s : SessionState) (e : Event) : Frame :=
  { author := e.author.getD "system"
    text := stringifyContent e
    calls := e.functionCalls.map (fun c => c.name)
    responses := e.functionResponses.map (fun r => r.name)
    escalate := e.actions.escalate
    judge_output := stateGet s.state "judge_output"
    reqId := reqId }

/-- Embedding of the streaming loop of apps/api/src/server.ts in the
uninterrupted case: each produced event is applied to the session by the
runner and then encoded into exactly one frame, whose judge_output snapshot
reads the session after that event. -/
def bridgeFrames (reqId : String) (s : SessionState) : List Event → List Frame
  | [] => []
  | e :: rest =>
    let s2 := applyEvent s e
    encodeFrame reqId s2 e :: bridgeFrames reqId s2 rest

/-- A transport-level output of the stream handler: a data frame or the one
error frame built in the catch branch of apps/api/src/server.ts. -/
inductive OutFrame where
  | data (f : Frame)
  | errorFrame (error : String) (code : String) (reqId : String)

/-- How the event sequence produced by the runner ends: normal exhaustion or
an exception raised while pulling the next event. -/
inductive SourceEnd where
  | done
  | fail (msg : String)
deriving DecidableEq

/-- The lazy event sequence a run hands to the bridge: its events in order
and the way it ends after them. -/
structure RunSource where
  events : List Event
  ending : SourceEnd

/-- Number of events the loop processes before the aborted flag is observed
set; none when the client never disconnects. -/
def tickClose (c : Option Nat) : Option Nat :=
  match c with
  | some (n + 1) => some n
  | o => o

/-- Embedding of the for-await streaming loop of apps/api/src/server.ts:
events are framed in order until either the list is exhausted (aborted
false) or the close flag is observed at a loop boundary (aborted true, no
frame for that or any later event). -/
def serveLoop (reqId : String) (closeAt : Option Nat) (s : SessionState) :
    List Event → List OutFrame × Bool
  | [] => ([], false)
  | e :: rest =>
    match closeAt with
    | some 0 => ([], true)
    | c =>
      let s2 := applyEvent s e
      let r := serveLoop reqId (tickClose c) s2 rest
      (.data (encodeFrame reqId s2 e) :: r.1, r.2)

/-- Embedding of the try/catch/finally around the streaming loop of
apps/api/src/server.ts: if the loop broke on abort, nothing further is sent;
otherwise a failing source adds exactly one error frame; in every case the
finally branch ends the response, so the transport ends closed. -/
def serveRun (reqId : String) (closeAt : Option Nat) (s : SessionState)
    (src : RunSource) : List OutFrame × Bool :=
  let r := serveLoop reqId closeAt s src.events
  let frames :=
    if r.2 then r.1
    else
      match src.ending with
      | .done => r.1
      | .fail msg => r.1 ++ [.errorFrame msg "stream_error" reqId]
  (frames, true)

/-- Count of error frames among the outputs of a run. -/
def countErr (fs : List OutFrame) : Nat :=
  fs.countP (fun f => match f with | .errorFrame _ _ _ => true | _ => false)

/-- State of the stream handler of apps/api/src/server.ts between scheduler
steps: the aborted flag set by the close callback, whether the keep-alive
interval is armed, whether the consumption loop has exited, the session, and
the events not yet pulled. -/
structure BridgeSt where
  aborted : Bool
  pingActive : Bool
  stopped : Bool
  sess : SessionState
  pending : List Event

/-- External occurrences the handler reacts to: the loop pulling the next
event, the transport close callback firing, and the keep-alive interval
firing. -/
inductive BridgeAct where
  | next
  | close
  | tick

/-- What one step writes to the transport: an event frame, a keep-alive
comment, or nothing. -/
inductive BridgeOut where
  | frame (f : Frame)
  | keepalive
  | silent

/-- Embedding of the stream handler of apps/api/src/server.ts as a step
function. The close callback sets aborted and clears the keep-alive interval
in the same step; the interval only writes while armed; the loop, when it
runs, first observes aborted and stops without transmitting, stops on
exhaustion, and otherwise frames the next event; leaving the loop clears the
interval again, as the finally branch does. -/
def bridgeStep (reqId : String) (st : BridgeSt) : BridgeAct → BridgeSt × BridgeOut
  | .close => ({ st with aborted := true, pingActive := false }, .silent)
  | .tick => (st, if st.pingActive then .keepalive else .silent)
  | .next =>
    if st.stopped then (st, .silent)
    else if st.aborted then
      ({ st with stopped := true, pingActive := false }, .silent)
    else
      match st.pending with
      | [] => ({ st with stopped := true, pingActive := false }, .silent)
      | e :: rest =>
        let s2 := applyEvent st.sess e
        ({ st with sess := s2, pending := rest },
          .frame (encodeFrame reqId s2 e))

/-- Run of the handler under a schedule of occurrences, collecting the final
state and the transport writes in order. -/
def bridgeSteps (reqId : String) (st : BridgeSt) :
    List BridgeAct → BridgeSt × List BridgeOut
  | [] => (st, [])
  | a :: rest =>
    let r := bridgeStep reqId st a
    let rr := bridgeSteps reqId r.1 rest
    (rr.1, r.2 :: rr.2)

/-- Raw query values of a GET /api/run/stream request, each absent or a
string, as express delivers them. -/
structure RunQuery where
  userId : Option String
  sessionId : Option String
  q : Option String
  model : Option String
  maxIterations : Option String

/-- The id constraint of apps/api/src/schemas.ts: a string of length 1 to
128. -/
def idOk (s : String) : Bool := 1 ≤ s.length && s.length ≤ 128

/-- The question constraint of apps/api/src/schemas.ts: a string of length 1
to 2000. -/
def qOk (s : String) : Bool := 1 ≤ s.length && s.length ≤ 2000

/-- Digits after an exponent marker: an optional sign then at least one
decimal digit. -/
def expDigitsOk (l : List Char) : Bool :=
  match l with
  | c :: rest =>
    if c == '+' || c == '-' then !rest.isEmpty && rest.all Char.isDigit
    else !l.isEmpty && l.all Char.isDigit
  | [] => false

/-- Optional exponent part of a JavaScript decimal literal. -/
def expOk (l : List Char) : Bool :=
  match l with
  | [] => true
  | c :: rest => (c == 'e' || c == 'E') && expDigitsOk rest

/-- Mantissa with optional fraction and exponent: digits, an optional dot
with further digits, with at least one digit overall. -/
def mantissaExpOk (l : List Char) : Bool :=
  let d1 := l.takeWhile Char.isDigit
  let r1 := l.dropWhile Char.isDigit
  match r1 with
  | '.' :: r2 =>
    let d2 := r2.takeWhile Char.isDigit
    let r3 := r2.dropWhile Char.isDigit
    (!d1.isEmpty || !d2.isEmpty) && expOk r3
  | _ => !d1.isEmpty && expOk r1

/-- Unsigned body of a JavaScript string-to-number literal: Infinity or a
decimal mantissa with optional exponent. -/
def unsignedNumOk (l : List Char) : Bool :=
  l == "Infinity".toList || mantissaExpOk l

/-- Signed decimal form accepted by JavaScript Number on strings. -/
def signedNumOk (l : List Char) : Bool :=
  match l with
  | c :: rest =>
    if c == '+' || c == '-' then unsignedNumOk rest else unsignedNumOk l
  | [] => false

/-- Hexadecimal digit. -/
def hexDigit (c : Char) : Bool :=
  c.isDigit || ('a' ≤ c && c ≤ 'f') || ('A' ≤ c && c ≤ 'F')

/-- Radix-prefixed forms accepted by JavaScript Number on strings: 0x, 0o and
0b literals, which admit no sign. -/
def radixNumOk (l : List Char) : Bool :=
  match l with
  | '0' :: x :: rest =>
    if x == 'x' || x == 'X' then !rest.isEmpty && rest.all hexDigit
    else if x == 'o' || x == 'O' then
      !rest.isEmpty && rest.all (fun c => '0' ≤ c && c ≤ '7')
    else if x == 'b' || x == 'B' then
      !rest.isEmpty && rest.all (fun c => c == '0' || c == '1')
    else false
  | _ => false

/-- Whitespace trimming as Number applies it before parsing. -/
def jsTrim (l : List Char) : List Char :=
  ((l.dropWhile Char.isWhitespace).reverse.dropWhile Char.isWhitespace).reverse

/-- Model of the acceptance set of z.coerce.number() from
apps/api/src/schemas.ts on string input: Number(s) is not NaN. After
trimming, the empty string coerces to zero; otherwise the string must be a
signed decimal or Infinity literal or an unsigned radix literal. -/
def jsNumberOk (s : String) : Bool :=
  let t := jsTrim s.toList
  t.isEmpty || radixNumOk t || signedNumOk t

/-- Successfully parsed GET /api/run/stream query, per RunStreamQuery of
apps/api/src/schemas.ts. -/
structure RunStreamParsed where
  userId : String
  sessionId : String
  q : String
  model : Option String
  maxIterations : Option String

/-- Embedding of RunStreamQuery.safeParse from apps/api/src/schemas.ts:
userId and sessionId are required ids, q a required question, model an
optional string, and maxIterations, when present, must coerce to a number. -/
def runStreamSafeParse (r : RunQuery) : Option RunStreamParsed :=
  match r.userId, r.sessionId, r.q with
  | some u, some sid, some qq =>
    let extras :=
      match r.maxIterations with
      | none => true
      | some m => jsNumberOk m
    if idOk u && idOk sid && qOk qq && extras then
      some ⟨u, sid, qq, r.model, r.maxIterations⟩
    else none
  | _, _, _ => none

/-- Structured JSON error body produced by sendError in
apps/api/src/server.ts. -/
structure ErrorBody where
  error : String
  code : String
  reqId : String
deriving DecidableEq

/-- Observable outcome of the validation part of the GET /api/run/stream
handler: a 400 response with the session store untouched, or a started
stream with the store possibly extended by the ensured session. -/
inductive StreamOutcome where
  | badRequest (status : Nat) (body : ErrorBody)
      (store : List (String × String × String))
  | streamStarted (store : List (String × String × String))
      (parsed : RunStreamParsed)

/-- Embedding of the validation and session-ensuring steps of the GET
/api/run/stream handler in apps/api/src/server.ts: on parse failure respond
400 with an invalid_request body and touch nothing; on success ensure the
session exists and start the stream. -/
def handleRunStream (appName reqId : String)
    (store : List (String × String × String)) (qr : RunQuery) : StreamOutcome :=
  match runStreamSafeParse qr with
  | none => .badRequest 400 ⟨"invalid query", "invalid_request", reqId⟩ store
  | some p =>
    let key := (appName, p.userId, p.sessionId)
    let store2 := if store.contains key then store else store ++ [key]
    .streamStarted store2 p

/-- C1: For every SessionState, the Checker stage run yields an Event with
actions.escalate true if and only if state at judge_output is present and
its status field is the string pass; in every other case (status fail, any
other status value, or the key absent) the event does not escalate and is
the fixed retry event. Being a plain function of the session, the output is
deterministic and involves no external reasoning capability. -/
theorem checker_escalates_iff_pass (name : String) (s : SessionState) :
    ((escalationCheckerRun name s).actions.escalate = true ↔
      ∃ v, stateGet s.state "judge_output" = some v ∧
        v.getField "status" = some (.vstr "pass")) ∧
    ((escalationCheckerRun name s).actions.escalate = false →
      (escalationCheckerRun name s).content = some
        { role := "model"
          parts := [{ text := some "Research failed quality check. Retrying..." }] }) := by
  unfold escalationCheckerRun
  rcases hj : stateGet s.state "judge_output" with _ | v
  · simp [isPassStatus]
  · rcases v with s' | n | b | fields
    · simp [isPassStatus, Value.getField]
    · simp [isPassStatus, Value.getField]
    · simp [isPassStatus, Value.getField]
    · rcases hf : stateGet fields "status" with _ | w
      · simp [isPassStatus, Value.getField, hf]
      · rcases w with s' | n | b | f2
        · by_cases hp : s' = "pass"
          · subst hp
            simp [isPassStatus, Value.getField, hf]
          · constructor
            · constructor
              · intro h
                simp [isPassStatus, Value.getField, hf, hp] at h
              · rintro ⟨v, hv, hs⟩
                cases hv
                simp [Value.getField, hf] at hs
                cases hs
                exact absurd rfl hp
            · intro h
              simp [isPassStatus, Value.getField, hf, hp]
        · simp [isPassStatus, Value.getField, hf]
        · simp [isPassStatus, Value.getField, hf]
        · simp [isPassStatus, Value.getField, hf]

/-- Witness for C1: on a session whose judge_output has status pass, the
escalate direction of the equivalence fires at a concrete input. -/
theorem checker_escalates_iff_pass_witness :
    (escalationCheckerRun "checker"
      ⟨[("judge_output", .vobj [("status", .vstr "pass")])], []⟩).actions.escalate = true :=
  (checker_escalates_iff_pass "checker"
    ⟨[("judge_output", .vobj [("status", .vstr "pass")])], []⟩).1.mpr
    ⟨.vobj [("status", .vstr "pass")], rfl, rfl⟩

/-- C10: the Checker read of state at judge_output is total — on a session
where the key is absent, or bound to a value with no status field, it yields
the continue event: no escalation, and the very same event an explicit
non-pass status produces, so the two cases are indistinguishable. -/
theorem checker_total_on_missing_output (name : String) (s : SessionState)
    (h : stateGet s.state "judge_output" = none ∨
      ∃ v, stateGet s.state "judge_output" = some v ∧
        v.getField "status" = none) :
    (escalationCheckerRun name s).actions.escalate = false ∧
    escalationCheckerRun name s =
      escalationCheckerRun name
        ⟨[("judge_output", .vobj [("status", .vstr "fail")])], []⟩ := by
  have hnp : isPassStatus
      ((stateGet s.state "judge_output").bind (fun v => v.getField "status")) = false := by
    rcases h with h | ⟨v, hv, hs⟩
    · simp [h, isPassStatus]
    · simp [hv, hs, isPassStatus]
  simp only [escalationCheckerRun]
  rw [hnp]
  simp [escalationCheckerRun, isPassStatus, Value.getField, stateGet]

/-- Witness for C10: the empty session has no judge_output key, and the
Checker yields the non-escalating retry event there. -/
theorem checker_total_on_missing_output_witness :
    (stateGet (SessionState.mk [] []).state "judge_output" = none ∨
      ∃ v, stateGet (SessionState.mk [] []).state "judge_output" = some v ∧
        v.getField "status" = none) ∧
    (escalationCheckerRun "checker" ⟨[], []⟩).actions.escalate = false :=
  ⟨Or.inl rfl,
    (checker_total_on_missing_output "checker" ⟨[], []⟩ (Or.inl rfl)).1⟩

/-- C8: the root of the pipeline is a Sequential composition whose only
child — with no further siblings — is a Loop with maxIterations 3 whose body
is, in order, the researcher Leaf, the judge Leaf carrying outputKey
judge_output, and the Checker. -/
theorem courseCreator_structure :
    courseCreator =
      Stage.seq "course_creator_pipeline"
        [Stage.loop "research_loop"
          [Stage.leaf "researcher" none,
            Stage.leaf "judge" (some "judge_output"),
            Stage.checker "checker"] 3] := rfl

/-- First-some choice on options: the value of a later write when present,
otherwise the earlier one. -/
def optOr {α : Type} (a b : Option α) : Option α :=
  match a with
  | some v => some v
  | none => b

theorem optOr_none_left {α : Type} (b : Option α) : optOr none b = b := rfl

theorem optOr_some_left {α : Type} (v : α) (b : Option α) :
    optOr (some v) b = some v := rfl

theorem optOr_none_right {α : Type} (a : Option α) : optOr a none = a := by
  cases a <;> rfl

theorem optOr_assoc {α : Type} (a b c : Option α) :
    optOr (optOr a b) c = optOr a (optOr b c) := by
  cases a <;> cases b <;> rfl

theorem runChildrenWith_append (cs ds : List Child) (s : SessionState) :
    runChildrenWith (cs ++ ds) s =
      ((runChildrenWith cs s).1 ++ (runChildrenWith ds (runChildrenWith cs s).2).1,
        (runChildrenWith ds (runChildrenWith cs s).2).2) := by
  induction cs generalizing s with
  | nil => simp [runChildrenWith]
  | cons c rest ih => simp [runChildrenWith, ih]

theorem lastEscalates_append_single (evs : List Event) (e : Event) :
    lastEscalates (evs ++ [e]) = e.actions.escalate := by
  simp [lastEscalates, List.getLast?_concat]

/-- An exhausted loop run: with a body whose passes never end in an
escalating event, the loop performs every granted pass and stops exhausted. -/
theorem runLoopWith_exhausts (pass : Child) (n : Nat) (s : SessionState)
    (h : ∀ s', lastEscalates (pass s').1 = false) :
    runLoopWith pass n s =
      ⟨iterEvents pass n s, iterState pass n s, .exhausted, n⟩ := by
  induction n generalizing s with
  | zero => simp [runLoopWith, iterEvents, iterState]
  | succ m ih => simp [runLoopWith, iterEvents, iterState, h, ih]

/-- C2: for every maxIterations n and every loop body ending, like the
research loop, in a single-event Checker that never emits an escalate Event,
the Loop performs exactly n body passes — each pass running the body
children in order — produces exactly the events of those n passes and none
after them, terminates in the Exhausted state, and an enclosing Sequential
composition then simply runs the next sibling on the resulting session
rather than raising an error. -/
theorem loop_exhausts_without_escalation (pre : List Child)
    (ck : SessionState → Event) (n : Nat) (s : SessionState) (g : Child)
    (hck : ∀ s', (ck s').actions.escalate = false) (_hn : 0 < n) :
    (runLoopWith (runChildrenWith (pre ++ [oneEventChild ck])) n s).passes = n ∧
    (runLoopWith (runChildrenWith (pre ++ [oneEventChild ck])) n s).outcome =
      .exhausted ∧
    (runLoopWith (runChildrenWith (pre ++ [oneEventChild ck])) n s).events =
      iterEvents (runChildrenWith (pre ++ [oneEventChild ck])) n s ∧
    runChildrenWith
        [loopChild (runChildrenWith (pre ++ [oneEventChild ck])) n, g] s =
      ((runLoopWith (runChildrenWith (pre ++ [oneEventChild ck])) n s).events ++
          (g (runLoopWith (runChildrenWith (pre ++ [oneEventChild ck])) n s).final).1,
        (g (runLoopWith (runChildrenWith (pre ++ [oneEventChild ck])) n s).final).2) := by
  have hpass : ∀ s', lastEscalates
      (runChildrenWith (pre ++ [oneEventChild ck]) s').1 = false := by
    intro s'
    rw [runChildrenWith_append]
    have : (runChildrenWith [oneEventChild ck] (runChildrenWith pre s').2).1 =
        [ck (runChildrenWith pre s').2] := by
      simp [runChildrenWith, oneEventChild]
    rw [this, lastEscalates_append_single]
    exact hck _
  have hmain := runLoopWith_exhausts _ n s hpass
  refine ⟨by rw [hmain], by rw [hmain], by rw [hmain], ?_⟩
  simp [runChildrenWith, loopChild]

/-- A checker-shaped component that always emits one non-escalating event. -/
def quietCheckEvent : Event :=
  ⟨some "checker", none, [], [], ⟨false, []⟩⟩

/-- The checker-shaped component as a function of the session. -/
def quietChecker (_s : SessionState) : Event := quietCheckEvent

/-- Witness for C2: a two-iteration loop whose body is a single never
escalating checker performs exactly two passes. -/
theorem loop_exhausts_without_escalation_witness :
    (∀ s', (quietChecker s').actions.escalate = false) ∧
    0 < 2 ∧
    (runLoopWith (runChildrenWith ([] ++ [oneEventChild quietChecker])) 2
      ⟨[], []⟩).passes = 2 :=
  ⟨fun _ => rfl, by decide,
    (loop_exhausts_without_escalation [] quietChecker 2 ⟨[], []⟩
      (fun s => ([], s)) (fun _ => rfl) (by decide)).1⟩

theorem iterEvents_succ_last (pass : Child) (n : Nat) (s : SessionState) :
    iterEvents pass (n + 1) s =
      iterEvents pass n s ++ (pass (iterState pass n s)).1 := by
  induction n generalizing s with
  | zero => simp [iterEvents, iterState]
  | succ m ih =>
    rw [iterEvents]
    rw [ih (pass s).2]
    simp [iterEvents, iterState]

/-- C3: if the body escalates on pass k = j + 1 with k at most maxIterations
— the first j passes do not end escalating and the pass from the session
reached after j passes does — then the Loop forwards exactly the events of
those k passes including the terminating escalate event, stops in the
Escalated state after exactly k passes, and no later body pass produces any
event. -/
theorem loop_escalates_at_pass (pass : Child) (j n : Nat) (s : SessionState)
    (hjn : j < n)
    (hbefore : ∀ i, i < j → lastEscalates (pass (iterState pass i s)).1 = false)
    (hat : lastEscalates (pass (iterState pass j s)).1 = true) :
    runLoopWith pass n s =
      ⟨iterEvents pass (j + 1) s, iterState pass (j + 1) s, .escalated, j + 1⟩ ∧
    lastEscalates (runLoopWith pass n s).events = true := by
  have main : runLoopWith pass n s =
      ⟨iterEvents pass (j + 1) s, iterState pass (j + 1) s, .escalated, j + 1⟩ := by
    induction j generalizing n s with
    | zero =>
      obtain ⟨m, rfl⟩ : ∃ m, n = m + 1 := ⟨n - 1, by omega⟩
      have h0 : lastEscalates (pass s).1 = true := by
        simpa [iterState] using hat
      simp [runLoopWith, h0, iterEvents, iterState]
    | succ i ih =>
      obtain ⟨m, rfl⟩ : ∃ m, n = m + 1 := ⟨n - 1, by omega⟩
      have h0 : lastEscalates (pass s).1 = false := by
        simpa [iterState] using hbefore 0 (by omega)
      have hrec := ih m (pass s).2 (by omega)
        (fun i2 hi2 => by
          simpa [iterState] using hbefore (i2 + 1) (by omega))
        (by simpa [iterState] using hat)
      rw [runLoopWith]
      simp only [h0]
      rw [hrec]
      simp [iterEvents, iterState]
    
  refine ⟨main, ?_⟩
  rw [main]
  show lastEscalates (iterEvents pass (j + 1) s) = true
  rw [iterEvents_succ_last, lastEscalates]
  have hne : (pass (iterState pass j s)).1 ≠ [] := by
    intro hnil
    rw [lastEscalates, hnil] at hat
    simp at hat
  rw [List.getLast?_append_of_ne_nil _ hne]
  rw [lastEscalates] at hat
  exact hat

/-- A body pass that emits one event which escalates exactly when the event
log already holds one event, so it escalates on its second pass. -/
def countingPass : Child := fun s =>
  let e : Event := ⟨some "checker", none, [], [], ⟨s.eventLog.length == 1, []⟩⟩
  ([e], applyEvent s e)

/-- Witness for C3: a pass escalating on its second iteration makes a
three-iteration loop stop after exactly two passes. -/
theorem loop_escalates_at_pass_witness :
    1 < 3 ∧
    (∀ i, i < 1 →
      lastEscalates (countingPass (iterState countingPass i ⟨[], []⟩)).1 = false) ∧
    lastEscalates (countingPass (iterState countingPass 1 ⟨[], []⟩)).1 = true ∧
    (runLoopWith countingPass 3 ⟨[], []⟩).passes = 2 :=
  ⟨by decide, by decide, by decide, by
    rw [(loop_escalates_at_pass countingPass 1 3 ⟨[], []⟩ (by decide) (by decide)
      (by decide)).1]⟩

/-- The value an event writes to a key through its state delta, later delta
entries shadowing earlier ones. -/
def eventWrite (e : Event) (k : String) : Option Value :=
  stateGet e.actions.stateDelta.reverse k

/-- The value the latest writing event of a list leaves at a key. -/
def lastWrite (k : String) : List Event → Option Value
  | [] => none
  | e :: rest => optOr (lastWrite k rest) (eventWrite e k)

theorem stateGet_append (l1 l2 : List (String × Value)) (k : String) :
    stateGet (l1 ++ l2) k = optOr (stateGet l1 k) (stateGet l2 k) := by
  induction l1 with
  | nil => simp [stateGet, optOr]
  | cons kv rest ih =>
    obtain ⟨k1, v⟩ := kv
    by_cases h : k1 = k
    · simp [stateGet, h, optOr]
    · simp [stateGet, h, ih]

theorem stateGet_applyDelta (d m : List (String × Value)) (k : String) :
    stateGet (applyDelta m d) k = optOr (stateGet d.reverse k) (stateGet m k) := by
  induction d generalizing m with
  | nil => simp [applyDelta, stateGet, optOr]
  | cons kv rest ih =>
    obtain ⟨k1, v⟩ := kv
    have step : applyDelta m ((k1, v) :: rest) = applyDelta ((k1, v) :: m) rest := rfl
    rw [step, ih]
    rw [List.reverse_cons, stateGet_append]
    by_cases h : k1 = k
    · cases hr : stateGet rest.reverse k <;>
        simp [stateGet, h, optOr, hr]
    · cases hr : stateGet rest.reverse k <;>
        simp [stateGet, h, optOr, hr]

theorem stateGet_applyEvents (es : List Event) (s : SessionState) (k : String) :
    stateGet (applyEvents s es).state k =
      optOr (lastWrite k es) (stateGet s.state k) := by
  induction es generalizing s with
  | nil => simp [applyEvents, lastWrite, optOr]
  | cons e rest ih =>
    have step : applyEvents s (e :: rest) = applyEvents (applyEvent s e) rest := rfl
    rw [step, ih]
    have : stateGet (applyEvent s e).state k =
        optOr (eventWrite e k) (stateGet s.state k) :=
      stateGet_applyDelta _ _ _
    rw [this, lastWrite, optOr_assoc]

theorem lastWrite_concat (k : String) (l : List Event) (e : Event) :
    lastWrite k (l ++ [e]) = optOr (eventWrite e k) (lastWrite k l) := by
  induction l with
  | nil => cases h : eventWrite e k <;> simp [lastWrite, optOr, h]
  | cons x xs ih =>
    rw [List.cons_append, lastWrite, ih, optOr_assoc]
    rfl

/-- For event lists where exactly the events of one author write a key, the
latest write is the write of the last event of that author. -/
theorem lastWrite_of_author (es : List Event) (A k : String)
    (hOnly : ∀ e ∈ es, e.author ≠ some A → eventWrite e k = none)
    (hAll : ∀ e ∈ es, e.author = some A → eventWrite e k ≠ none)
    (hne : es.any (fun e => e.author == some A) = true) :
    ∃ last, (es.filter (fun e => e.author == some A)).getLast? = some last ∧
      lastWrite k es = eventWrite last k ∧ eventWrite last k ≠ none := by
  induction es using List.reverseRecOn with
  | nil => simp at hne
  | append_singleton l e ih =>
    by_cases hA : e.author = some A
    · obtain ⟨v, hv⟩ : ∃ v, eventWrite e k = some v := by
        cases hw : eventWrite e k with
        | none => exact absurd hw (hAll e (by simp) hA)
        | some v => exact ⟨v, rfl⟩
      refine ⟨e, ?_, ?_, ?_⟩
      · rw [List.filter_append]
        simp [hA, List.getLast?_concat]
      · rw [lastWrite_concat, hv, optOr_some_left]
      · rw [hv]
        simp
    · have hw : eventWrite e k = none := hOnly e (by simp) hA
      have hne2 : l.any (fun e2 => e2.author == some A) = true := by
        rcases List.any_eq_true.mp hne with ⟨x, hx, hpx⟩
        rcases List.mem_append.mp hx with hxl | hxe
        · exact List.any_eq_true.mpr ⟨x, hxl, hpx⟩
        · simp at hxe
          subst hxe
          simp at hpx
          exact absurd hpx hA
      obtain ⟨last, h1, h2, h3⟩ := ih
        (fun x hx hxa => hOnly x (List.mem_append.mpr (Or.inl hx)) hxa)
        (fun x hx hxa => hAll x (List.mem_append.mpr (Or.inl hx)) hxa)
        hne2
      refine ⟨last, ?_, ?_, h3⟩
      · rw [List.filter_append]
        simp only [List.filter]
        have : (e.author == some A) = false := by
          simp [hA]
        rw [this]
        simp [h1]
      · rw [lastWrite_concat, hw, optOr_none_left, h2]

/-- C7: for a stage holding an outputKey, over a run whose events write that
key exactly when the stage authored them, the state at that key after the
run is the structured output written by the last Event the stage produced,
however many events it produced: each merge overwrote the previous value. -/
theorem outputKey_last_write_wins (s : SessionState) (es : List Event)
    (A k : String)
    (hOnly : ∀ e ∈ es, e.author ≠ some A → eventWrite e k = none)
    (hAll : ∀ e ∈ es, e.author = some A → eventWrite e k ≠ none)
    (hne : es.any (fun e => e.author == some A) = true) :
    ∃ last, (es.filter (fun e => e.author == some A)).getLast? = some last ∧
      stateGet (applyEvents s es).state k = eventWrite last k := by
  obtain ⟨last, h1, h2, h3⟩ := lastWrite_of_author es A k hOnly hAll hne
  refine ⟨last, h1, ?_⟩
  rw [stateGet_applyEvents, h2]
  cases hw : eventWrite last k with
  | none => exact absurd hw h3
  | some v => rfl

/-- A judge-shaped event writing one value to judge_output. -/
def judgeEvent (v : Value) : Event :=
  ⟨some "judge", none, [], [], ⟨false, [("judge_output", v)]⟩⟩

/-- Witness for C7: two judge events write fail then pass to judge_output;
after the run the state holds the second write. -/
theorem outputKey_last_write_wins_witness :
    (∀ e ∈ [judgeEvent (.vstr "fail"), judgeEvent (.vstr "pass")],
      e.author ≠ some "judge" → eventWrite e "judge_output" = none) ∧
    (∀ e ∈ [judgeEvent (.vstr "fail"), judgeEvent (.vstr "pass")],
      e.author = some "judge" → eventWrite e "judge_output" ≠ none) ∧
    (∃ last,
      ([judgeEvent (.vstr "fail"), judgeEvent (.vstr "pass")].filter
        (fun e => e.author == some "judge")).getLast? = some last ∧
      stateGet (applyEvents ⟨[], []⟩
        [judgeEvent (.vstr "fail"), judgeEvent (.vstr "pass")]).state
        "judge_output" = eventWrite last "judge_output") := by
  refine ⟨?_, ?_, ?_⟩
  · intro e he hna
    simp [judgeEvent] at he
    rcases he with rfl | rfl <;> simp [judgeEvent] at hna
  · intro e he ha
    simp [judgeEvent] at he
    rcases he with rfl | rfl <;> simp [judgeEvent, eventWrite, stateGet]
  · refine outputKey_last_write_wins ⟨[], []⟩ _ "judge" "judge_output" ?_ ?_ ?_
    · intro e he hna
      simp [judgeEvent] at he
      rcases he with rfl | rfl <;> simp [judgeEvent] at hna
    · intro e he ha
      simp [judgeEvent] at he
      rcases he with rfl | rfl <;> simp [judgeEvent, eventWrite, stateGet]
    · simp [judgeEvent]

/-- An event with an author and no content, calls, escalation or state
delta. -/
def plainEvent (a : String) : Event := ⟨some a, none, [], [], ⟨false, []⟩⟩

/-- Counterexample for C4: with judge_output present and two events that do
not change it, both transmitted frames carry the same judge_output snapshot
— the snapshot of the second frame is unchanged from the first and is still
carried, so frames do not omit an unchanged snapshot. -/
theorem bridge_carries_unchanged_snapshot :
    ((bridgeFrames "r" ⟨[("judge_output", Value.vstr "ok")], []⟩
        [plainEvent "a", plainEvent "b"]).map (fun f => f.judge_output)) =
      [some (Value.vstr "ok"), some (Value.vstr "ok")] ∧
    (some (Value.vstr "ok") : Option Value) ≠ none :=
  ⟨rfl, by simp⟩

theorem bridgeFrames_length (reqId : String) (s : SessionState)
    (es : List Event) : (bridgeFrames reqId s es).length = es.length := by
  induction es generalizing s with
  | nil => rfl
  | cons e rest ih => simp [bridgeFrames, ih]

/-- C4 as the code has it: for every event of the run, the bridge transmits
exactly one frame holding the author (or the system default), the text or
its absence, the call and response names only, the escalate flag, the
request id, and — unconditionally, changed or not — the judge_output value
read from the session state as it stands after that event. -/
theorem bridge_frame_fields (reqId : String) (s : SessionState)
    (es : List Event) (i : Nat) (e : Event) (he : es[i]? = some e) :
    (bridgeFrames reqId s es).length = es.length ∧
    ∃ f, (bridgeFrames reqId s es)[i]? = some f ∧
      f.author = e.author.getD "system" ∧
      f.text = stringifyContent e ∧
      f.calls = e.functionCalls.map (fun c => c.name) ∧
      f.responses = e.functionResponses.map (fun r => r.name) ∧
      f.escalate = e.actions.escalate ∧
      f.judge_output =
        stateGet (applyEvents s (es.take (i + 1))).state "judge_output" ∧
      f.reqId = reqId := by
  refine ⟨bridgeFrames_length reqId s es, ?_⟩
  induction es generalizing i s with
  | nil => simp at he
  | cons x rest ih =>
    cases i with
    | zero =>
      simp only [List.getElem?_cons_zero, Option.some.injEq] at he
      subst he
      refine ⟨encodeFrame reqId (applyEvent s x) x, ?_⟩
      simp [bridgeFrames, encodeFrame, applyEvents]
    | succ j =>
      simp only [List.getElem?_cons_succ] at he
      obtain ⟨f, hf, hrest⟩ := ih (applyEvent s x) j he
      refine ⟨f, ?_, hrest⟩
      simpa [bridgeFrames] using hf

/-- Witness for C4 at a one-event run from the empty session. -/
theorem bridge_frame_fields_witness :
    ([plainEvent "a"] : List Event)[0]? = some (plainEvent "a") ∧
    ((bridgeFrames "r" ⟨[], []⟩ [plainEvent "a"]).length = 1 ∧
      ∃ f, (bridgeFrames "r" ⟨[], []⟩ [plainEvent "a"])[0]? = some f ∧
        f.author = (plainEvent "a").author.getD "system" ∧
        f.text = stringifyContent (plainEvent "a") ∧
        f.calls = (plainEvent "a").functionCalls.map (fun c => c.name) ∧
        f.responses = (plainEvent "a").functionResponses.map (fun r => r.name) ∧
        f.escalate = (plainEvent "a").actions.escalate ∧
        f.judge_output =
          stateGet (applyEvents ⟨[], []⟩ ([plainEvent "a"].take 1)).state
            "judge_output" ∧
        f.reqId = "r") :=
  ⟨rfl, bridge_frame_fields "r" ⟨[], []⟩ [plainEvent "a"] 0 (plainEvent "a") rfl⟩

/-- Invariant holding from the moment the transport closes: the aborted flag
is set and the keep-alive interval is cleared. -/
def closedInv (st : BridgeSt) : Prop :=
  st.aborted = true ∧ st.pingActive = false

theorem bridgeStep_closed_silent (reqId : String) (st : BridgeSt)
    (a : BridgeAct) (h : closedInv st) :
    (bridgeStep reqId st a).2 = .silent ∧ closedInv (bridgeStep reqId st a).1 := by
  obtain ⟨ha, hp⟩ := h
  cases a with
  | close => exact ⟨rfl, rfl, rfl⟩
  | tick => simp [bridgeStep, hp, closedInv, ha]
  | next =>
    by_cases hs : st.stopped
    · simp [bridgeStep, hs, closedInv, ha, hp]
    · simp [bridgeStep, hs, ha, closedInv]

theorem bridgeSteps_closed_silent (reqId : String) (st : BridgeSt)
    (acts : List BridgeAct) (h : closedInv st) :
    (bridgeSteps reqId st acts).2 = List.replicate acts.length .silent := by
  induction acts generalizing st with
  | nil => rfl
  | cons a rest ih =>
    obtain ⟨h1, h2⟩ := bridgeStep_closed_silent reqId st a h
    simp [bridgeSteps, h1, ih _ h2, List.replicate]

theorem bridgeSteps_append (reqId : String) (st : BridgeSt)
    (l1 l2 : List BridgeAct) :
    bridgeSteps reqId st (l1 ++ l2) =
      ((bridgeSteps reqId (bridgeSteps reqId st l1).1 l2).1,
        (bridgeSteps reqId st l1).2 ++
          (bridgeSteps reqId (bridgeSteps reqId st l1).1 l2).2) := by
  induction l1 generalizing st with
  | nil => simp [bridgeSteps]
  | cons a rest ih => simp [bridgeSteps, ih]

/-- C5: whatever the handler state when the transport closes, the close step
itself clears the keep-alive interval, and every later step — pulls at event
boundaries included, even with events still pending — writes nothing to the
transport: no event frame and no keep-alive frame follows the close. -/
theorem close_stops_all_output (reqId : String) (st0 : BridgeSt)
    (pre post : List BridgeAct) :
    ((bridgeSteps reqId st0 (pre ++ BridgeAct.close :: post)).2 =
      (bridgeSteps reqId st0 (pre ++ [BridgeAct.close])).2 ++
        List.replicate post.length .silent) ∧
    ((bridgeSteps reqId st0 (pre ++ [BridgeAct.close])).1).pingActive = false ∧
    ((bridgeSteps reqId st0 (pre ++ [BridgeAct.close])).1).aborted = true := by
  have hsplit1 : pre ++ BridgeAct.close :: post =
      (pre ++ [BridgeAct.close]) ++ post := by simp
  have hclosed : closedInv (bridgeSteps reqId st0 (pre ++ [BridgeAct.close])).1 := by
    rw [bridgeSteps_append]
    constructor <;> rfl
  refine ⟨?_, hclosed.2, hclosed.1⟩
  rw [hsplit1, bridgeSteps_append]
  rw [bridgeSteps_closed_silent reqId _ post hclosed]

theorem countErr_serveLoop (reqId : String) (closeAt : Option Nat)
    (s : SessionState) (es : List Event) :
    countErr (serveLoop reqId closeAt s es).1 = 0 := by
  induction es generalizing closeAt s with
  | nil => rfl
  | cons e rest ih =>
    match closeAt with
    | some 0 => rfl
    | none => simp [serveLoop, countErr, List.countP_cons] at ih ⊢; exact ih _ _
    | some (n + 1) => simp [serveLoop, countErr, List.countP_cons] at ih ⊢; exact ih _ _

theorem countErr_append (a b : List OutFrame) :
    countErr (a ++ b) = countErr a + countErr b :=
  List.countP_append _ _ _

/-- C6: every served run ends with the transport closed, never carries more
than one error frame, carries none when the event sequence ends normally,
and when the sequence raises — and the loop was not broken first by a
disconnect — the outputs are exactly the data frames followed by one final
error frame. -/
theorem serve_closes_once_with_one_error (reqId : String) (closeAt : Option Nat)
    (s : SessionState) (src : RunSource) :
    (serveRun reqId closeAt s src).2 = true ∧
    countErr (serveRun reqId closeAt s src).1 ≤ 1 ∧
    (src.ending = .done → countErr (serveRun reqId closeAt s src).1 = 0) ∧
    (∀ msg, src.ending = .fail msg →
      (serveLoop reqId closeAt s src.events).2 = false →
      (serveRun reqId closeAt s src).1 =
        (serveLoop reqId closeAt s src.events).1 ++
          [.errorFrame msg "stream_error" reqId] ∧
      countErr (serveRun reqId closeAt s src).1 = 1) := by
  have hdata := countErr_serveLoop reqId closeAt s src.events
  have hcases : (serveRun reqId closeAt s src).1 =
        (serveLoop reqId closeAt s src.events).1 ∨
      (∃ msg, src.ending = .fail msg ∧
        (serveLoop reqId closeAt s src.events).2 = false ∧
        (serveRun reqId closeAt s src).1 =
          (serveLoop reqId closeAt s src.events).1 ++
            [.errorFrame msg "stream_error" reqId]) := by
    cases hab : (serveLoop reqId closeAt s src.events).2 with
    | true =>
      left
      unfold serveRun
      simp [hab]
    | false =>
      cases hend : src.ending with
      | done =>
        left
        unfold serveRun
        simp [hab, hend]
      | fail msg =>
        right
        refine ⟨msg, rfl, rfl, ?_⟩
        unfold serveRun
        simp [hab, hend]
  refine ⟨rfl, ?_, ?_, ?_⟩
  · rcases hcases with h | ⟨msg, hend, hab, h⟩
    · rw [h, hdata]
      omega
    · rw [h, countErr_append, hdata]
      simp [countErr, List.countP_cons]
  · intro hdone
    rcases hcases with h | ⟨msg, hend, hab, h⟩
    · rw [h, hdata]
    · rw [hend] at hdone
      cases hdone
  · intro msg hend hab
    rcases hcases with h | ⟨msg2, hend2, hab2, h⟩
    · exfalso
      have : (serveRun reqId closeAt s src).1 =
          (serveLoop reqId closeAt s src.events).1 ++
            [.errorFrame msg "stream_error" reqId] := by
        unfold serveRun
        simp [hab, hend]
      rw [this] at h
      have := congrArg List.length h
      simp at this
    · rw [hend] at hend2
      cases hend2
      refine ⟨h, ?_⟩
      rw [h, countErr_append, hdata]
      simp [countErr, List.countP_cons]

/-- Witness for C6: a one-event source that then raises yields exactly one
error frame when no disconnect intervened. -/
theorem serve_closes_once_with_one_error_witness :
    (RunSource.mk [plainEvent "a"] (.fail "boom")).ending =
      SourceEnd.fail "boom" ∧
    (serveLoop "r" none ⟨[], []⟩
      (RunSource.mk [plainEvent "a"] (.fail "boom")).events).2 = false ∧
    countErr (serveRun "r" none ⟨[], []⟩
      (RunSource.mk [plainEvent "a"] (.fail "boom"))).1 = 1 :=
  ⟨rfl, rfl,
    ((serve_closes_once_with_one_error "r" none ⟨[], []⟩
      ⟨[plainEvent "a"], .fail "boom"⟩).2.2.2 "boom" rfl rfl).2⟩

/-- Counterexample for C9: a query whose userId, sessionId and q satisfy the
claimed length bounds is nevertheless rejected, because its optional
maxIterations parameter does not coerce to a number — so the bounds on the
three fields are not equivalent to acceptance. -/
theorem runStream_rejects_valid_ids :
    idOk "user-1" = true ∧ idOk "session-1" = true ∧ qOk "hi" = true ∧
    (runStreamSafeParse
      ⟨some "user-1", some "session-1", some "hi", none, some "abc"⟩).isNone =
      true := by
  decide

/-- C9 as the code has it: the stream query is accepted exactly when userId
and sessionId are strings of 1 to 128 characters, q is a string of 1 to
2000 characters, and the optional maxIterations value, when present,
coerces to a number; and whenever the parse rejects, the handler answers
status 400 with a structured error body carrying the invalid_request code
and the request id, starts no stream, and leaves the session store exactly
as it was. -/
theorem runStream_validation (appName reqId : String)
    (store : List (String × String × String)) (qr : RunQuery) :
    ((runStreamSafeParse qr).isSome = true ↔
      (∃ u, qr.userId = some u ∧ idOk u = true) ∧
      (∃ v, qr.sessionId = some v ∧ idOk v = true) ∧
      (∃ w, qr.q = some w ∧ qOk w = true) ∧
      (∀ m, qr.maxIterations = some m → jsNumberOk m = true)) ∧
    ((runStreamSafeParse qr).isNone = true →
      handleRunStream appName reqId store qr =
        .badRequest 400 ⟨"invalid query", "invalid_request", reqId⟩ store) := by
  constructor
  · obtain ⟨uo, so, qo, mo, io⟩ := qr
    cases uo <;> cases so <;> cases qo <;> cases io <;>
      simp [runStreamSafeParse, and_assoc]
  · intro h
    unfold handleRunStream
    cases hp : runStreamSafeParse qr with
    | none => rfl
    | some p =>
      rw [hp] at h
      simp at h

/-- Witness for C9: a fully valid query is accepted, and an invalid one gets
the 400 outcome with the store untouched. -/
theorem runStream_validation_witness :
    (runStreamSafeParse
      ⟨some "user-1", some "session-1", some "hi", none, some "3"⟩).isSome =
      true ∧
    handleRunStream "app" "rid" []
        ⟨none, some "session-1", some "hi", none, none⟩ =
      .badRequest 400 ⟨"invalid query", "invalid_request", "rid"⟩ [] :=
  ⟨(runStream_validation "app" "rid" []
      ⟨some "user-1", some "session-1", some "hi", none, some "3"⟩).1.mpr
      ⟨⟨"user-1", rfl, by decide⟩, ⟨"session-1", rfl, by decide⟩,
        ⟨"hi", rfl, by decide⟩,
        fun m hm => by cases hm; decide⟩,
    (runStream_validation "app" "rid" []
      ⟨none, some "session-1", some "hi", none, none⟩).2 rfl⟩
